import Mathlib

/-!
Shallow embedding of the audio-scheduling core of the compact metronome
application (source: src/src/AdvancedMetronomeUI.jsx).

Numbers are modelled as exact rationals (`ℚ`): every numeric literal that the
source manipulates (bpm, swing percentages, the 0.05/0.12 scheduling constants,
0.003/0.06 envelope times, ...) is an exact decimal, and the claims under
study are arithmetic identities and orderings on those values.

JavaScript-specific behaviour that the source relies on is modelled
explicitly:
* a raw (untrusted) configuration field is an `Option`; `none` stands for a
  missing field or one whose `Number(...)` conversion is `NaN`;
* `Number(x) || d` is `numOr`: it falls back to `d` when the field is absent
  (`NaN`) or equal to `0`, because `0` is falsy in JavaScript;
* `x ?? d` on a boolean field falls back only when the field is absent;
* `parseInt(s, 10)` is `jsParseInt` (leading whitespace, optional sign,
  leading decimal digits, `none` for `NaN`);
* `Math.round` is `jsRound` (round half towards +∞);
* `arr.slice(-6)` keeps the last six elements;
* the `requestAnimationFrame`-driven `while` loops of `schedulerLoop` are
  modelled with an explicit fuel argument plus a `completed` flag recording
  whether the loop guard became false (the loop exited) before fuel ran out.
-/

/-- `clamp(n, min, max) = Math.max(min, Math.min(max, n))`. -/
def clamp (n lo hi : ℚ) : ℚ := max lo (min hi n)

/-- Accumulate decimal digits, as `parseInt` does. -/
def digitsToNat : List Char → ℕ → ℕ
  | [], acc => acc
  | c :: cs, acc => digitsToNat cs (acc * 10 + (c.toNat - 48))

/-- `parseInt(s, 10)`: skip leading whitespace, read an optional sign and then
leading decimal digits; `none` models a `NaN` result (no digits). -/
def jsParseInt (cs : List Char) : Option Int :=
  let cs := cs.dropWhile (fun c => c = ' ' ∨ c = '\t' ∨ c = '\n' ∨ c = '\r')
  match cs with
  | '-' :: rest =>
      let ds := rest.takeWhile Char.isDigit
      if ds = [] then none else some (-(digitsToNat ds 0 : Int))
  | '+' :: rest =>
      let ds := rest.takeWhile Char.isDigit
      if ds = [] then none else some (digitsToNat ds 0)
  | rest =>
      let ds := rest.takeWhile Char.isDigit
      if ds = [] then none else some (digitsToNat ds 0)

/-- `str.split(sep)` on a list of characters (single-character separator). -/
def splitOnChar (sep : Char) : List Char → List (List Char)
  | [] => [[]]
  | c :: cs =>
      if c = sep then [] :: splitOnChar sep cs
      else
        match splitOnChar sep cs with
        | [] => [[c]]
        | p :: ps => (c :: p) :: ps

/-- `parseBeats(ts)`: split a "top/bottom" time-signature string on `/`,
`parseInt` both halves, and fall back to `4` for any non-finite half. -/
def parseBeats (ts : String) : Int × Int :=
  let parts := (splitOnChar '/' ts.data).map jsParseInt
  let top := (parts.get? 0).getD none
  let bottom := (parts.get? 1).getD none
  (top.getD 4, bottom.getD 4)

/-- The supported time-signature strings (`TIME_SIGNATURES`). -/
def TIME_SIGNATURES : List String :=
  ["2/2", "2/4", "3/4", "4/4", "5/4", "6/4", "7/4", "3/8", "5/8", "6/8",
   "7/8", "9/8", "12/8", "5/16", "7/16", "9/16", "11/16", "13/16"]

/-- The supported subdivision strings (`SUBDIVISIONS`). -/
def SUBDIVISIONS : List String :=
  ["1/4", "1/8", "1/8T", "1/16", "1/16T", "1/32", "1/32T", "1/64"]

/-- `getSubdivisionsPerBeat`: steps per beat for each subdivision, defaulting
to `2` (eighth notes) for unknown values. -/
def getSubdivisionsPerBeat (value : String) : ℕ :=
  if value = "1/4" then 1
  else if value = "1/8" then 2
  else if value = "1/8T" then 3
  else if value = "1/16" then 4
  else if value = "1/16T" then 6
  else if value = "1/32" then 8
  else if value = "1/32T" then 12
  else if value = "1/64" then 16
  else 2

/-- A raw (imported / stored / user-supplied) configuration object.  `none`
models a missing field, a field of the wrong type, or a numeric field whose
`Number(...)` conversion is `NaN`. -/
structure RawConfig where
  bpm : Option ℚ
  ts : Option String
  subdivision : Option String
  swing : Option ℚ
  volume : Option ℚ
  polyEnabled : Option Bool
  polyBeats : Option ℚ
  polySubdivision : Option String
  polyVolume : Option ℚ
  visualPulse : Option Bool
  accents : Option (List Bool)
deriving Repr, DecidableEq

/-- A validated configuration, the return shape of `normalizeConfig`. -/
structure Config where
  bpm : ℚ
  ts : String
  subdivision : String
  swing : ℚ
  volume : ℚ
  polyEnabled : Bool
  polyBeats : ℚ
  polySubdivision : String
  polyVolume : ℚ
  visualPulse : Bool
  accents : List Bool
deriving Repr, DecidableEq

/-- `Number(raw?.f) || d`: fall back to the default when the field is missing
(`NaN`) or its numeric value is `0` (falsy in JavaScript). -/
def numOr (x : Option ℚ) (d : ℚ) : ℚ :=
  match x with
  | none => d
  | some v => if v = 0 then d else v

/-- `normalizeBooleanArray(value, length)`: a boolean array of exactly
`length` entries read positionally from `value` (missing entries are false). -/
def normalizeBooleanArray (value : Option (List Bool)) (length : ℕ) : List Bool :=
  let list := value.getD []
  (List.range length).map (fun i => list.getD i false)

/-- `normalizeConfig(raw)`: validate every field independently, clamping
numbers and falling back to defaults for unknown strings. -/
def normalizeConfig (raw : RawConfig) : Config :=
  let bpm := clamp (numOr raw.bpm 120) 20 300
  let ts :=
    match raw.ts with
    | some s => if s ∈ TIME_SIGNATURES then s else "4/4"
    | none => "4/4"
  let beats := (parseBeats ts).1
  let subdivision :=
    match raw.subdivision with
    | some s => if s ∈ SUBDIVISIONS then s else "1/8"
    | none => "1/8"
  let swing := clamp (numOr raw.swing 0) 0 75
  let volume := clamp (numOr raw.volume 70) 0 100
  let polyEnabled := (raw.polyEnabled).getD false
  let polyBeats := clamp (numOr raw.polyBeats 3) 2 12
  let polySubdivision :=
    match raw.polySubdivision with
    | some s => if s ∈ SUBDIVISIONS then s else "1/4"
    | none => "1/4"
  let polyVolume := clamp (numOr raw.polyVolume 55) 0 100
  let visualPulse := (raw.visualPulse).getD true
  let accents := normalizeBooleanArray raw.accents beats.toNat
  { bpm := bpm, ts := ts, subdivision := subdivision, swing := swing,
    volume := volume, polyEnabled := polyEnabled, polyBeats := polyBeats,
    polySubdivision := polySubdivision, polyVolume := polyVolume,
    visualPulse := visualPulse, accents := accents }

/-- View a validated configuration as a raw object: this is the shape of the
JSON payload written by `exportConfig` and read back by `importConfig`
(JSON stringify/parse is exact on these finite values). -/
def toRaw (c : Config) : RawConfig :=
  { bpm := some c.bpm, ts := some c.ts, subdivision := some c.subdivision,
    swing := some c.swing, volume := some c.volume,
    polyEnabled := some c.polyEnabled, polyBeats := some c.polyBeats,
    polySubdivision := some c.polySubdivision, polyVolume := some c.polyVolume,
    visualPulse := some c.visualPulse, accents := some c.accents }

/-- `applyConfig(raw)`: re-normalize the payload and merge it field by field
into the current configuration, keeping the current bpm while tempo-locked. -/
def applyConfig (tempoLock : Bool) (current : Config) (raw : RawConfig) : Config :=
  let config := normalizeConfig raw
  let next := parseBeats config.ts
  { bpm := if tempoLock then current.bpm else config.bpm,
    ts := config.ts, subdivision := config.subdivision, swing := config.swing,
    volume := config.volume, polyEnabled := config.polyEnabled,
    polyBeats := config.polyBeats, polySubdivision := config.polySubdivision,
    polyVolume := config.polyVolume, visualPulse := config.visualPulse,
    accents := normalizeBooleanArray (some config.accents) next.1.toNat }

/-- `exportConfig`: the payload placed on the clipboard is
`{version, config: normalizeConfig(getConfigSnapshot())}`. -/
def exportPayload (current : Config) : Config :=
  normalizeConfig (toRaw current)

/-- `importConfig(exportConfig())`: parse the exported payload (exact for
these values), extract `parsed.config` and apply it. -/
def importOfExport (tempoLock : Bool) (current : Config) : Config :=
  applyConfig tempoLock current (toRaw (exportPayload current))

/-- The three observable outcomes of the `importConfig` prompt:
an empty/cancelled prompt, text that `JSON.parse` rejects, or a successfully
parsed payload (already routed through `parsed?.config ?? parsed`). -/
inductive ImportInput where
  | emptyPrompt
  | invalidJson
  | payload (raw : RawConfig)

/-- `importConfig`: the resulting configuration, paired with whether the
"invalid JSON" alert was shown. -/
def importConfigModel (input : ImportInput) (tempoLock : Bool) (current : Config) :
    Config × Bool :=
  match input with
  | ImportInput.emptyPrompt => (current, false)
  | ImportInput.invalidJson => (current, true)
  | ImportInput.payload raw => (applyConfig tempoLock current raw, false)

/-- The audio graph nodes created by one `scheduleClick` call: an oscillator
(square when accented, triangle otherwise) and its gain envelope. -/
structure ClickEnvelope where
  squareWave : Bool
  freq : ℚ
  attackEnd : ℚ
  peak : ℚ
  decayEnd : ℚ
  stopTime : ℚ
deriving Repr, DecidableEq

/-- `scheduleClick(time, accented, intensity, frequency)`: one percussive
tone; the envelope ramps linearly from 0 to `peak` over 3 ms, decays over
60 ms, and the oscillator stops 20 ms later. -/
def scheduleClick (time : ℚ) (accented : Bool) (intensity : ℚ) (frequency : Option ℚ) :
    ClickEnvelope :=
  let freq := frequency.getD (if accented then 1100 else 750)
  let attack : ℚ := 3 / 1000
  let decay : ℚ := 6 / 100
  let level := max 0 (min 1 intensity)
  { squareWave := accented, freq := freq, attackEnd := time + attack,
    peak := (if accented then (9 : ℚ) / 10 else 7 / 10) * level,
    decayEnd := time + decay, stopTime := time + decay + 2 / 100 }

/-- `Math.round`: round half towards positive infinity,
`Math.round(x) = floor(x + 1/2)`. -/
def jsRound (x : ℚ) : ℤ := (x + 1 / 2).floor

/-- `arr.slice(-6)`: the last six elements (everything, if fewer). -/
def sliceLast6 (l : List ℚ) : List ℚ := l.drop (l.length - 6)

/-- Insert into an ascending list (used to model `sort((a, b) => a - b)`). -/
def insertAsc (x : ℚ) : List ℚ → List ℚ
  | [] => [x]
  | y :: ys => if x ≤ y then x :: y :: ys else y :: insertAsc x ys

/-- `arr.slice().sort((a, b) => a - b)`: numeric ascending sort. -/
def sortAsc (l : List ℚ) : List ℚ := l.foldr insertAsc []

/-- One invocation of `tap()` while Stopped: append the timestamp to the tap
history (keeping the last six) and, once at least four timestamps exist and
tempo is not locked, re-estimate the bpm from the trimmed median interval. -/
def tapStep (tempoLock : Bool) (st : List ℚ × ℚ) (now : ℚ) : List ℚ × ℚ :=
  let next := sliceLast6 (st.1 ++ [now])
  if 4 ≤ next.length ∧ tempoLock = false then
    let diffs := List.zipWith (fun t p => t - p) (next.drop 1) next
    let sorted := sortAsc diffs
    let trimmed := if 4 < sorted.length then (sorted.drop 1).dropLast else sorted
    let mid := trimmed.length / 2
    let median :=
      if trimmed.length % 2 = 0 then (trimmed.getD (mid - 1) 0 + trimmed.getD mid 0) / 2
      else trimmed.getD mid 0
    let bpmEst := jsRound (60000 / median)
    (next, clamp (bpmEst : ℚ) 20 300)
  else (next, st.2)

/-- Feed a whole sequence of tap timestamps to `tap()`, starting from the
initial state (empty history, bpm 120). -/
def tapRun (tempoLock : Bool) (taps : List ℚ) : List ℚ × ℚ :=
  taps.foldl (tapStep tempoLock) ([], 120)

/-- The timing snapshot computed once per scheduler pass by
`getTimingSnapshot`. -/
structure Timing where
  beatDuration : ℚ
  subdivisionsPerBeat : ℕ
  baseSubdivision : ℚ
  swingEnabled : Bool
  swingFactors : ℚ × ℚ
deriving Repr, DecidableEq

/-- `getTimingSnapshot()`: pure timing model, recomputed from the live
configuration snapshot on every scheduler pass. -/
def getTimingSnapshot (bpm unit : ℚ) (subdivision : String) (swing : ℚ) : Timing :=
  let beatDuration := 60 / bpm * (4 / unit)
  let subdivisionsPerBeat := getSubdivisionsPerBeat subdivision
  let baseSubdivision := beatDuration / subdivisionsPerBeat
  let swingAmount := min (3 / 4 : ℚ) (max 0 (swing / 100))
  let swingEnabled := decide (0 < swingAmount) && decide (subdivisionsPerBeat % 2 = 0)
  let swingFactors :=
    if swingEnabled then (1 + swingAmount * (1 / 2), 1 - swingAmount * (1 / 2))
    else ((1 : ℚ), (1 : ℚ))
  { beatDuration := beatDuration, subdivisionsPerBeat := subdivisionsPerBeat,
    baseSubdivision := baseSubdivision, swingEnabled := swingEnabled,
    swingFactors := swingFactors }

/-- The live configuration snapshot the scheduler reads each pass (`beats` and
`unit` come from `parseBeats(ts)` with `ts` restricted to
`TIME_SIGNATURES`). -/
structure SchedConfig where
  bpm : ℚ
  unit : ℚ
  beats : ℕ
  subdivision : String
  swing : ℚ
  accents : List Bool
  polyEnabled : Bool
  polyBeats : ℕ
  polySubdivision : String
  polyVolume : ℚ
  visualPulse : Bool
  trainingMode : Bool
  trainingStep : ℚ
  trainingEvery : ℕ
  tempoLock : Bool
deriving Repr, DecidableEq

/-- The scheduler-owned mutable refs (`SchedulerRuntimeState`).  `bpmSets` is
a ghost log of the `setBpm` requests issued by training mode: a `setBpm` call
updates React state asynchronously, so inside a pass it is an emitted effect,
not an in-place mutation of the snapshot. -/
structure SchedState where
  nextNoteTime : ℚ
  currentStep : ℕ
  measureStart : ℚ
  measureCount : ℕ
  polyNextNoteTime : ℚ
  polyStep : ℕ
  currentBeat : ℕ
  phase : ℚ
  bpmSets : List ℚ
deriving Repr, DecidableEq

/-- A dispatched main-stream click: `scheduleClick(nextNoteTime, accented, 1)`
(intensity 1, default frequency pair 1100/750). -/
structure MainClick where
  time : ℚ
  accented : Bool
deriving Repr, DecidableEq

/-- A dispatched poly-stream click:
`scheduleClick(t, accented, polyVolume / 100, accented ? 900 : 620)`. -/
structure PolyClick where
  time : ℚ
  accented : Bool
  intensity : ℚ
  frequency : ℚ
deriving Repr, DecidableEq

/-- One iteration of the main-stream `while` body of `schedulerLoop`:
dispatch a click for the current step, update the measure / beat / poly / training
bookkeeping, and advance `nextNoteTime` and `currentStep`. -/
def mainLoopBody (cfg : SchedConfig) (t : Timing) (st : SchedState) :
    MainClick × SchedState :=
  let totalSteps := max 1 (cfg.beats * t.subdivisionsPerBeat)
  let stepIndex := st.currentStep % totalSteps
  let beatIndex := stepIndex / t.subdivisionsPerBeat
  let subIndex := stepIndex % t.subdivisionsPerBeat
  let accentsForBeat := cfg.accents.getD beatIndex (decide (beatIndex = 0))
  let isBeatStart := decide (subIndex = 0)
  let accented := isBeatStart && accentsForBeat
  let click : MainClick := { time := st.nextNoteTime, accented := accented }
  let st1 :=
    if isBeatStart && !(beatIndex == st.currentBeat) then
      { st with currentBeat := beatIndex }
    else st
  let st2 :=
    if stepIndex = 0 then
      let stA := { st1 with measureStart := st.nextNoteTime,
                            measureCount := st1.measureCount + 1 }
      let stB :=
        if cfg.polyEnabled then
          { stA with polyNextNoteTime := st.nextNoteTime, polyStep := 0 }
        else stA
      if cfg.trainingMode ∧ 0 < cfg.trainingEvery ∧
          stB.measureCount % cfg.trainingEvery = 0 ∧ cfg.tempoLock = false then
        { stB with bpmSets := stB.bpmSets ++ [clamp (cfg.bpm + cfg.trainingStep) 20 300] }
      else stB
    else st1
  let stepDuration :=
    t.baseSubdivision *
      (if t.swingEnabled then
        (if stepIndex % 2 = 0 then t.swingFactors.1 else t.swingFactors.2)
      else 1)
  (click, { st2 with nextNoteTime := st.nextNoteTime + stepDuration,
                     currentStep := stepIndex + 1 })

/-- The main-stream fill loop:
`while (nextNoteTime < now + scheduleAhead) { ... }`, with explicit fuel. -/
def mainFill (cfg : SchedConfig) (t : Timing) (horizon : ℚ) :
    ℕ → SchedState → List MainClick × SchedState
  | 0, st => ([], st)
  | fuel + 1, st =>
      if st.nextNoteTime < horizon then
        let out := mainFill cfg t horizon fuel (mainLoopBody cfg t st).2
        ((mainLoopBody cfg t st).1 :: out.1, out.2)
      else ([], st)

/-- The poly-stream fill loop of `schedulerLoop`, with explicit fuel.  The
final `Bool` records whether the loop guard became false (the loop exited on
its own) rather than fuel running out.  Note that only the click emission is
guarded by `polyStepDuration > 0`; the time advance is not. -/
def polyFill (polyTotalSteps polySubdivisions : ℕ) (polyStepDuration polyVolume : ℚ)
    (horizon : ℚ) : ℕ → ℚ × ℕ → List PolyClick × (ℚ × ℕ) × Bool
  | 0, st => ([], st, false)
  | fuel + 1, st =>
      if st.1 < horizon then
        let stepIndex := st.2 % polyTotalSteps
        let subIndex := stepIndex % polySubdivisions
        let isBeatStart := decide (subIndex = 0)
        let emitted :=
          if 0 < polyStepDuration then
            [{ time := st.1, accented := isBeatStart,
               intensity := polyVolume / 100,
               frequency := if isBeatStart then 900 else 620 : PolyClick }]
          else []
        let out := polyFill polyTotalSteps polySubdivisions polyStepDuration polyVolume
          horizon fuel (st.1 + polyStepDuration, stepIndex + 1)
        (emitted ++ out.1, out.2)
      else ([], st, true)

/-- The derived-visual-state tail of `schedulerLoop`: update the published
phase percentage (or pin it to 0 when the visual pulse is disabled). -/
def phasePass (cfg : SchedConfig) (t : Timing) (now : ℚ) (st : SchedState) : SchedState :=
  if cfg.visualPulse then
    let measureDuration := t.beatDuration * cfg.beats
    let elapsed := max 0 (now - st.measureStart)
    let progress := if 0 < measureDuration then elapsed / measureDuration * 100 else 0
    let nextPhase := clamp progress 0 100
    if 1 / 10 < |nextPhase - st.phase| then { st with phase := nextPhase } else st
  else if st.phase ≠ 0 then { st with phase := 0 } else st

/-- One invocation of `schedulerLoop` while Running: read the timing snapshot,
fill the main stream up to `now + 0.12`, fill the poly stream when enabled
(resynchronizing it if it fell behind realtime by more than the look-ahead),
then update the visual phase. -/
def schedulerPass (cfg : SchedConfig) (now : ℚ) (mainFuel polyFuel : ℕ)
    (st : SchedState) : (List MainClick × List PolyClick) × SchedState :=
  let scheduleAhead : ℚ := 12 / 100
  let t := getTimingSnapshot cfg.bpm cfg.unit cfg.subdivision cfg.swing
  let m := mainFill cfg t (now + scheduleAhead) mainFuel st
  let st1 := m.2
  if cfg.polyEnabled then
    let polySubdivisions := getSubdivisionsPerBeat cfg.polySubdivision
    let polyTotalSteps := max 1 (cfg.polyBeats * polySubdivisions)
    let measureDuration := t.beatDuration * cfg.beats
    let polyStepDuration := measureDuration / polyTotalSteps
    let st2 :=
      if st1.polyNextNoteTime < now - scheduleAhead then
        { st1 with polyNextNoteTime := now + 1 / 100, polyStep := 0 }
      else st1
    let p := polyFill polyTotalSteps polySubdivisions polyStepDuration cfg.polyVolume
      (now + scheduleAhead) polyFuel (st2.polyNextNoteTime, st2.polyStep)
    let st3 := { st2 with polyNextNoteTime := p.2.1.1, polyStep := p.2.1.2 }
    ((m.1, p.1), phasePass cfg t now st3)
  else ((m.1, []), phasePass cfg t now st1)

/-- A sequence of scheduler invocations while Running: each entry supplies the
audio-clock time `now` of that animation callback plus fuel for the two fill
loops.  Returns all dispatched main and poly clicks, in dispatch order. -/
def runScheduler (cfg : SchedConfig) :
    List (ℚ × ℕ × ℕ) → SchedState → List MainClick × List PolyClick × SchedState
  | [], st => ([], [], st)
  | (now, mf, pf) :: rest, st =>
      let p := schedulerPass cfg now mf pf st
      let out := runScheduler cfg rest p.2
      (p.1.1 ++ out.1, p.1.2 ++ out.2.1, out.2.2)

/-- The fresh runtime epoch installed by `startTransport`: all scheduler refs
reset, with the first click anchored at `now + 0.05`. -/
def startState (now : ℚ) : SchedState :=
  { nextNoteTime := now + 1 / 20, currentStep := 0,
    measureStart := now + 1 / 20, measureCount := 0,
    polyNextNoteTime := now + 1 / 20, polyStep := 0,
    currentBeat := 0, phase := 0, bpmSets := [] }

/-- The transport: the Running flag, the scheduler runtime state, and whether
an animation-frame callback chain is armed. -/
structure Transport where
  running : Bool
  sched : SchedState
  rafArmed : Bool
deriving Repr, DecidableEq

/-- `startTransport()`: a no-op while already Running; otherwise reset the
runtime state to a fresh epoch anchored at `now + 0.05`, set Running and arm
the callback chain. -/
def startTransport (now : ℚ) (tr : Transport) : Transport :=
  if tr.running then tr
  else { running := true, sched := startState now, rafArmed := true }

/-- The Timing Model's duration of the step with index `stepIndex`:
`baseSubdivision * (swingEnabled ? swingFactors[stepIndex % 2] : 1)`. -/
def mainStepDuration (t : Timing) (stepIndex : ℕ) : ℚ :=
  t.baseSubdivision *
    (if t.swingEnabled then
      (if stepIndex % 2 = 0 then t.swingFactors.1 else t.swingFactors.2)
    else 1)

/-- `totalSteps = Math.max(1, beats * subdivisionsPerBeat)`. -/
def totalSteps (cfg : SchedConfig) (t : Timing) : ℕ :=
  max 1 (cfg.beats * t.subdivisionsPerBeat)

/-- The `(nextNoteTime, currentStep)` projection of the scheduler state; the
dispatched main-stream clicks are a function of this projection alone. -/
def projTS (st : SchedState) : ℚ × ℕ := (st.nextNoteTime, st.currentStep)

/-- How one main-loop iteration advances the `(nextNoteTime, currentStep)`
projection. -/
def advanceTS (cfg : SchedConfig) (t : Timing) (a : ℚ × ℕ) : ℚ × ℕ :=
  (a.1 + mainStepDuration t (a.2 % totalSteps cfg t), a.2 % totalSteps cfg t + 1)

/-- Whether the main-stream step dispatched from step counter `s` is accented:
`(subIndex == 0) && (accents[beatIndex] ?? beatIndex === 0)`. -/
def mainAccent (cfg : SchedConfig) (t : Timing) (s : ℕ) : Bool :=
  let stepIndex := s % totalSteps cfg t
  let beatIndex := stepIndex / t.subdivisionsPerBeat
  let subIndex := stepIndex % t.subdivisionsPerBeat
  decide (subIndex = 0) && cfg.accents.getD beatIndex (decide (beatIndex = 0))

/-- The main-stream click dispatched from projection `a`. -/
def clickTS (cfg : SchedConfig) (t : Timing) (a : ℚ × ℕ) : MainClick :=
  { time := a.1, accented := mainAccent cfg t a.2 }

/-- `clicks` is exactly the run of main-stream clicks dispatched from
projection `a`, leaving the projection at `b`. -/
def orbitSegC (cfg : SchedConfig) (t : Timing) : ℚ × ℕ → List MainClick → ℚ × ℕ → Prop
  | a, [], b => b = a
  | a, c :: rest, b => c = clickTS cfg t a ∧ orbitSegC cfg t (advanceTS cfg t a) rest b

/-- The claim's delta property: starting from step counter `s`, each
consecutive pair of dispatched times differs by exactly the Timing Model's
duration for the step being left (swing factor selected by `stepIndex % 2`). -/
def deltasFollow (cfg : SchedConfig) (t : Timing) : ℕ → List ℚ → Prop
  | _, [] => True
  | _, [_] => True
  | s, x :: y :: rest =>
      y - x = mainStepDuration t (s % totalSteps cfg t) ∧
      deltasFollow cfg t (s % totalSteps cfg t + 1) (y :: rest)

/-- A raw object none of whose fields is present (also the view of any parsed
JSON value that is not an object, e.g. the number `5`). -/
def emptyRaw : RawConfig :=
  { bpm := none, ts := none, subdivision := none, swing := none, volume := none,
    polyEnabled := none, polyBeats := none, polySubdivision := none,
    polyVolume := none, visualPulse := none, accents := none }

/-- A previously-validated configuration with both volumes at `0`: it is the
output of `normalizeConfig` on `{..., volume: -5, polyVolume: -5}`, and every
field is inside its documented range. -/
def zeroVolumeConfig : Config :=
  { bpm := 120, ts := "4/4", subdivision := "1/8", swing := 0, volume := 0,
    polyEnabled := false, polyBeats := 3, polySubdivision := "1/4", polyVolume := 0,
    visualPulse := true, accents := [true, false, false, false] }

/-- The raw input used by the source's own self-test of `normalizeConfig`. -/
def selfTestRaw : RawConfig :=
  { bpm := some 85, ts := some "7/8", subdivision := some "1/16", swing := some 10,
    volume := some 55, polyEnabled := some true, polyBeats := some 5,
    polySubdivision := some "1/8", polyVolume := some 45, visualPulse := some false,
    accents := some [true, false, true] }

/-- The configuration of the end-to-end scenario: bpm 120, time signature 4/4
(so `beats = 4`, `unit = 4` via `parseBeats`), subdivision 1/8, swing 0, the
default accent pattern, polyrhythm and training off. -/
def scenarioConfig : SchedConfig :=
  { bpm := 120, unit := 4, beats := 4, subdivision := "1/8", swing := 0,
    accents := [true, false, false, false], polyEnabled := false, polyBeats := 3,
    polySubdivision := "1/4", polyVolume := 55, visualPulse := true,
    trainingMode := false, trainingStep := 2, trainingEvery := 4, tempoLock := false }

/-- C10: for every call to the click synthesizer, the intensity is clamped
into [0,1] before use; the envelope peak equals (0.9 if accented else 0.7)
times the clamped intensity, so it never exceeds 0.9 and is never negative,
whatever real intensity the caller passes. -/
theorem scheduleClick_peak_bounded (time : ℚ) (accented : Bool) (intensity : ℚ)
    (frequency : Option ℚ) :
    (scheduleClick time accented intensity frequency).peak
        = (if accented then (9 : ℚ) / 10 else 7 / 10) * clamp intensity 0 1 ∧
    0 ≤ (scheduleClick time accented intensity frequency).peak ∧
    (scheduleClick time accented intensity frequency).peak ≤ 9 / 10 := by
  have hlevel0 : (0 : ℚ) ≤ max 0 (min 1 intensity) := le_max_left 0 _
  have hlevel1 : max 0 (min 1 intensity) ≤ 1 :=
    max_le (by norm_num) (min_le_left 1 intensity)
  refine ⟨rfl, ?_, ?_⟩
  · show (0 : ℚ) ≤ (if accented then (9 : ℚ) / 10 else 7 / 10) * max 0 (min 1 intensity)
    cases accented <;> simp only [Bool.false_eq_true, if_false, if_true] <;>
      nlinarith [hlevel0, hlevel1]
  · show (if accented then (9 : ℚ) / 10 else 7 / 10) * max 0 (min 1 intensity) ≤ 9 / 10
    cases accented <;> simp only [Bool.false_eq_true, if_false, if_true] <;>
      nlinarith [hlevel0, hlevel1]

/-- C6: `start()` is idempotent — a second `start()` while already Running is
a no-op, leaving exactly the runtime epoch and callback chain installed by the
first call, regardless of the audio-clock times of the two calls. -/
theorem startTransport_idempotent (tr : Transport) (now now' : ℚ) :
    startTransport now' (startTransport now tr) = startTransport now tr := by
  by_cases h : tr.running
  · simp [startTransport, h]
  · simp [startTransport, h]

/-- C1: the round-trip `import(export(config))` does NOT reproduce every
previously-validated configuration: `zeroVolumeConfig` (volume 0, polyVolume 0,
every field in range) is itself an output of `normalizeConfig`, yet with tempo
lock off the round-trip returns volume 70 and polyVolume 55, because
`exportConfig` re-normalizes the snapshot with `Number(x) || default` and `0`
is falsy. -/
theorem importOfExport_drops_zero_volume :
    normalizeConfig { toRaw zeroVolumeConfig with
        volume := some (-5), polyVolume := some (-5) } = zeroVolumeConfig ∧
    (20 ≤ zeroVolumeConfig.bpm ∧ zeroVolumeConfig.bpm ≤ 300) ∧
    (0 ≤ zeroVolumeConfig.volume ∧ zeroVolumeConfig.volume ≤ 100) ∧
    (0 ≤ zeroVolumeConfig.polyVolume ∧ zeroVolumeConfig.polyVolume ≤ 100) ∧
    (importOfExport false zeroVolumeConfig).volume = 70 ∧
    (importOfExport false zeroVolumeConfig).polyVolume = 55 ∧
    importOfExport false zeroVolumeConfig ≠ zeroVolumeConfig := by
  decide

/-- C9 (counterexample): a payload that parses as JSON but is not a valid
configuration (here: a value with none of the configuration fields, e.g. the
JSON number `5`) is NOT rejected — `applyConfig` resets every field to its
default, changing the previously-validated current configuration (bpm 85,
7/8, ...), and no error is reported. -/
theorem import_invalid_payload_changes_config :
    (importConfigModel (ImportInput.payload emptyRaw) false
        (normalizeConfig selfTestRaw)).1 ≠ normalizeConfig selfTestRaw ∧
    (importConfigModel (ImportInput.payload emptyRaw) false
        (normalizeConfig selfTestRaw)).2 = false := by
  decide

/-- C9 (amended): malformed JSON is rejected and reported (alert) with the
configuration left entirely unchanged; but a payload that parses as JSON is
never rejected — it is always applied after field-wise normalization, so an
invalid payload can change the configuration (it is not left unchanged). -/
theorem import_malformed_json_rejected (lock : Bool) (current : Config) :
    importConfigModel ImportInput.invalidJson lock current = (current, true) ∧
    ∀ raw : RawConfig,
      importConfigModel (ImportInput.payload raw) lock current
        = (applyConfig lock current raw, false) :=
  ⟨rfl, fun _ => rfl⟩

/-- The normalized boolean array always has exactly the requested length. -/
theorem normalizeBooleanArray_length (value : Option (List Bool)) (length : ℕ) :
    (normalizeBooleanArray value length).length = length := by
  simp [normalizeBooleanArray]

/-- C8: validation clamps at the boundaries — bpm 19 becomes 20, bpm 301
becomes 300, swing 80 becomes 75 — and any time-signature string outside the
known list falls back to "4/4", whose parsed beatsPerMeasure is 4 (the accent
pattern is sized accordingly). -/
theorem normalizeConfig_boundary (raw : RawConfig) (s : String)
    (hs : s ∉ TIME_SIGNATURES) :
    (normalizeConfig { raw with bpm := some 19 }).bpm = 20 ∧
    (normalizeConfig { raw with bpm := some 301 }).bpm = 300 ∧
    (normalizeConfig { raw with swing := some 80 }).swing = 75 ∧
    (normalizeConfig { raw with ts := some s }).ts = "4/4" ∧
    (parseBeats (normalizeConfig { raw with ts := some s }).ts).1 = 4 ∧
    (normalizeConfig { raw with ts := some s }).accents.length = 4 := by
  have hts : (normalizeConfig { raw with ts := some s }).ts = "4/4" := by
    show (if s ∈ TIME_SIGNATURES then s else "4/4") = "4/4"
    rw [if_neg hs]
  refine ⟨?_, ?_, ?_, hts, ?_, ?_⟩
  · show clamp (numOr (some 19) 120) 20 300 = 20
    decide
  · show clamp (numOr (some 301) 120) 20 300 = 300
    decide
  · show clamp (numOr (some 80) 0) 0 75 = 75
    decide
  · rw [hts]
    decide
  · show (normalizeBooleanArray raw.accents
        (parseBeats (if s ∈ TIME_SIGNATURES then s else "4/4")).1.toNat).length = 4
    rw [if_neg hs, normalizeBooleanArray_length]
    decide

/-- Witness for C8 at a concrete unknown signature string. -/
theorem normalizeConfig_boundary_witness :
    "9/4" ∉ TIME_SIGNATURES ∧
    ((normalizeConfig { emptyRaw with bpm := some 19 }).bpm = 20 ∧
     (normalizeConfig { emptyRaw with bpm := some 301 }).bpm = 300 ∧
     (normalizeConfig { emptyRaw with swing := some 80 }).swing = 75 ∧
     (normalizeConfig { emptyRaw with ts := some "9/4" }).ts = "4/4" ∧
     (parseBeats (normalizeConfig { emptyRaw with ts := some "9/4" }).ts).1 = 4 ∧
     (normalizeConfig { emptyRaw with ts := some "9/4" }).accents.length = 4) :=
  ⟨by decide, normalizeConfig_boundary emptyRaw "9/4" (by decide)⟩

/-- `jsRound` agrees with the floor-function form of `Math.round`. -/
theorem jsRound_eq (x : ℚ) : jsRound x = ⌊x + 1 / 2⌋ := rfl

/-- The tap history kept by `tap()` always holds at most six timestamps. -/
theorem sliceLast6_length (l : List ℚ) : (sliceLast6 l).length ≤ 6 := by
  simp only [sliceLast6, List.length_drop]
  omega

/-- Both branches of `tap()` store the last six timestamps as the history. -/
theorem tapStep_history (lock : Bool) (st : List ℚ × ℚ) (now : ℚ) :
    (tapStep lock st now).1 = sliceLast6 (st.1 ++ [now]) := by
  simp only [tapStep]
  split <;> rfl

/-- C7: tap tempo keeps at most the last six timestamps; with history
[0,500,1000,1500] ms the estimated tempo is exactly 120 bpm, and with
[0,500,1000,1500,2000,9999] the outlier interval is trimmed before the median
so the estimate is still exactly 120 bpm. -/
theorem tapTempo_properties :
    (∀ (lock : Bool) (taps : List ℚ), (tapRun lock taps).1.length ≤ 6) ∧
    (tapRun false [0, 500, 1000, 1500]).2 = 120 ∧
    (tapRun false [0, 500, 1000, 1500, 2000, 9999]).2 = 120 := by
  refine ⟨?_, ?_, ?_⟩
  case refine_2 =>
    norm_num [tapRun, tapStep, sliceLast6, sortAsc, insertAsc, jsRound_eq, clamp, List.foldl]
  case refine_3 =>
    norm_num [tapRun, tapStep, sliceLast6, sortAsc, insertAsc, jsRound_eq, clamp, List.foldl]
  intro lock taps
  have key : ∀ (l : List ℚ) (st : List ℚ × ℚ), st.1.length ≤ 6 →
      (l.foldl (tapStep lock) st).1.length ≤ 6 := by
    intro l
    induction l with
    | nil => intro st h; simpa [List.foldl]
    | cons x xs ih =>
        intro st h
        simp only [List.foldl_cons]
        exact ih _ (by rw [tapStep_history]; exact sliceLast6_length _)
  exact key taps ([], 120) (by simp)

/-- The click dispatched by one main-loop iteration depends only on the
`(nextNoteTime, currentStep)` projection of the state. -/
theorem mainLoopBody_click (cfg : SchedConfig) (t : Timing) (st : SchedState) :
    (mainLoopBody cfg t st).1 = clickTS cfg t (projTS st) := rfl

/-- One main-loop iteration advances the `(nextNoteTime, currentStep)`
projection by `advanceTS`, whatever the bookkeeping fields do. -/
theorem mainLoopBody_proj (cfg : SchedConfig) (t : Timing) (st : SchedState) :
    projTS (mainLoopBody cfg t st).2 = advanceTS cfg t (projTS st) := rfl

/-- The main-stream fill loop dispatches exactly an orbit segment of the
`(nextNoteTime, currentStep)` projection. -/
theorem mainFill_orbit (cfg : SchedConfig) (t : Timing) (horizon : ℚ) :
    ∀ (fuel : ℕ) (st : SchedState),
      orbitSegC cfg t (projTS st) (mainFill cfg t horizon fuel st).1
        (projTS (mainFill cfg t horizon fuel st).2) := by
  intro fuel
  induction fuel with
  | zero => intro st; simp [mainFill, orbitSegC]
  | succ n ih =>
      intro st
      by_cases h : st.nextNoteTime < horizon
      · simp only [mainFill, if_pos h]
        refine ⟨mainLoopBody_click cfg t st, ?_⟩
        rw [← mainLoopBody_proj cfg t st]
        exact ih (mainLoopBody cfg t st).2
      · simp only [mainFill, if_neg h]
        rfl

/-- Orbit segments concatenate. -/
theorem orbitSegC_append (cfg : SchedConfig) (t : Timing) :
    ∀ (l1 : List MainClick) (a b c : ℚ × ℕ) (l2 : List MainClick),
      orbitSegC cfg t a l1 b → orbitSegC cfg t b l2 c →
      orbitSegC cfg t a (l1 ++ l2) c := by
  intro l1
  induction l1 with
  | nil =>
      intro a b c l2 h1 h2
      have hb : b = a := h1
      subst hb
      simpa using h2
  | cons x xs ih =>
      intro a b c l2 h1 h2
      obtain ⟨hx, hrest⟩ := h1
      exact ⟨hx, ih _ _ _ _ hrest h2⟩

/-- The visual-phase update never touches `nextNoteTime` / `currentStep`. -/
theorem phasePass_proj (cfg : SchedConfig) (t : Timing) (now : ℚ) (st : SchedState) :
    projTS (phasePass cfg t now st) = projTS st := by
  simp only [phasePass]
  split_ifs <;> rfl

/-- A scheduler pass dispatches exactly the clicks of its main fill. -/
theorem schedulerPass_main (cfg : SchedConfig) (now : ℚ) (mf pf : ℕ) (st : SchedState) :
    (schedulerPass cfg now mf pf st).1.1
      = (mainFill cfg (getTimingSnapshot cfg.bpm cfg.unit cfg.subdivision cfg.swing)
          (now + 12 / 100) mf st).1 := by
  simp only [schedulerPass]
  split <;> rfl

/-- The poly fill and the phase update of a pass leave the main-stream
projection exactly where the main fill left it. -/
theorem schedulerPass_proj (cfg : SchedConfig) (now : ℚ) (mf pf : ℕ) (st : SchedState) :
    projTS (schedulerPass cfg now mf pf st).2
      = projTS (mainFill cfg (getTimingSnapshot cfg.bpm cfg.unit cfg.subdivision cfg.swing)
          (now + 12 / 100) mf st).2 := by
  simp only [schedulerPass]
  split
  · rw [phasePass_proj]
    split <;> rfl
  · rw [phasePass_proj]

/-- One scheduler pass dispatches an orbit segment of the projection. -/
theorem schedulerPass_orbit (cfg : SchedConfig) (now : ℚ) (mf pf : ℕ) (st : SchedState) :
    orbitSegC cfg (getTimingSnapshot cfg.bpm cfg.unit cfg.subdivision cfg.swing)
      (projTS st) (schedulerPass cfg now mf pf st).1.1
      (projTS (schedulerPass cfg now mf pf st).2) := by
  rw [schedulerPass_main, schedulerPass_proj]
  exact mainFill_orbit cfg _ _ mf st

/-- Any run of scheduler passes dispatches, in order, one orbit segment of the
`(nextNoteTime, currentStep)` projection: the main-stream click sequence of the
whole run is a single orbit of the Timing Model. -/
theorem runScheduler_orbit (cfg : SchedConfig) :
    ∀ (passes : List (ℚ × ℕ × ℕ)) (st : SchedState),
      orbitSegC cfg (getTimingSnapshot cfg.bpm cfg.unit cfg.subdivision cfg.swing)
        (projTS st) (runScheduler cfg passes st).1
        (projTS (runScheduler cfg passes st).2.2) := by
  intro passes
  induction passes with
  | nil => intro st; simp [runScheduler, orbitSegC]
  | cons p rest ih =>
      intro st
      obtain ⟨now, mf, pf⟩ := p
      simp only [runScheduler]
      exact orbitSegC_append cfg _ _ _ _ _ _ (schedulerPass_orbit cfg now mf pf st)
        (ih (schedulerPass cfg now mf pf st).2)

/-- Along an orbit segment, consecutive dispatched times differ by exactly the
Timing Model's step duration, indexed by the step being left. -/
theorem orbitSegC_deltas (cfg : SchedConfig) (t : Timing) :
    ∀ (l : List MainClick) (a b : ℚ × ℕ), orbitSegC cfg t a l b →
      deltasFollow cfg t a.2 (l.map MainClick.time) := by
  intro l
  induction l with
  | nil => intro a b h; simp [deltasFollow]
  | cons c rest ih =>
      intro a b h
      obtain ⟨hc, hrest⟩ := h
      cases rest with
      | nil => simp [deltasFollow]
      | cons d rest' =>
          obtain ⟨hd, hrest'⟩ := hrest
          simp only [List.map_cons, deltasFollow]
          constructor
          · subst hc hd
            show (advanceTS cfg t a).1 - a.1 = _
            simp [advanceTS]
          · have := ih (advanceTS cfg t a) b ⟨hd, hrest'⟩
            simpa [advanceTS] using this

/-- Along an orbit segment with positive step durations, dispatched times are
strictly increasing. -/
theorem orbitSegC_chain (cfg : SchedConfig) (t : Timing)
    (hpos : ∀ j, 0 < mainStepDuration t j) :
    ∀ (l : List MainClick) (a b : ℚ × ℕ), orbitSegC cfg t a l b →
      List.Chain' (fun x y => x < y) (l.map MainClick.time) := by
  intro l
  induction l with
  | nil => intro a b _; simp
  | cons c rest ih =>
      intro a b h
      obtain ⟨hc, hrest⟩ := h
      cases rest with
      | nil => simp
      | cons d rest' =>
          obtain ⟨hd, hrest'⟩ := hrest
          simp only [List.map_cons, List.chain'_cons]
          constructor
          · subst hc hd
            show a.1 < (advanceTS cfg t a).1
            have := hpos (a.2 % totalSteps cfg t)
            simp only [advanceTS]
            linarith
          · have := ih (advanceTS cfg t a) b ⟨hd, hrest'⟩
            simpa using this

/-- Every subdivision maps to at least one step per beat. -/
theorem getSubdivisionsPerBeat_pos (value : String) :
    1 ≤ getSubdivisionsPerBeat value := by
  unfold getSubdivisionsPerBeat
  split_ifs <;> norm_num

/-- With a positive bpm and beat unit, every step duration of the timing
snapshot is positive: the base subdivision is positive and both swing factors
stay within (0, 2) because the swing amount is capped at 0.75. -/
theorem mainStepDuration_pos (bpm unit swing : ℚ) (subdivision : String)
    (hbpm : 0 < bpm) (hunit : 0 < unit) :
    ∀ j, 0 < mainStepDuration (getTimingSnapshot bpm unit subdivision swing) j := by
  intro j
  have hspb : (0 : ℚ) < (getSubdivisionsPerBeat subdivision : ℚ) := by
    exact_mod_cast Nat.lt_of_lt_of_le Nat.zero_lt_one (getSubdivisionsPerBeat_pos subdivision)
  have hbase : 0 < (getTimingSnapshot bpm unit subdivision swing).baseSubdivision := by
    show 0 < 60 / bpm * (4 / unit) / (getSubdivisionsPerBeat subdivision : ℚ)
    positivity
  have ha0 : (0 : ℚ) ≤ min (3 / 4 : ℚ) (max 0 (swing / 100)) :=
    le_min (by norm_num) (le_max_left 0 _)
  have ha34 : min (3 / 4 : ℚ) (max 0 (swing / 100)) ≤ 3 / 4 := min_le_left _ _
  have hf1 : 0 < (getTimingSnapshot bpm unit subdivision swing).swingFactors.1 := by
    simp only [getTimingSnapshot]
    split_ifs <;> simp <;> nlinarith
  have hf2 : 0 < (getTimingSnapshot bpm unit subdivision swing).swingFactors.2 := by
    simp only [getTimingSnapshot]
    split_ifs <;> simp <;> nlinarith
  simp only [mainStepDuration]
  split_ifs
  · exact mul_pos hbase hf1
  · exact mul_pos hbase hf2
  · simpa using hbase

/-- C2: over any sequence of scheduler passes while Running with an unchanged
valid configuration (bpm in [20,300], positive beat unit, steps per beat from
the subdivision table, swing in [0,75], training off), the dispatched
main-stream click times are strictly increasing, and each consecutive delta is
exactly the Timing Model's `baseStepDuration * swingFactor(stepIndex % 2)` for
the step being left. -/
theorem scheduler_main_monotone (cfg : SchedConfig) (st0 : SchedState)
    (passes : List (ℚ × ℕ × ℕ))
    (hb1 : 20 ≤ cfg.bpm) (hb2 : cfg.bpm ≤ 300) (hu : 0 < cfg.unit)
    (hs1 : 0 ≤ cfg.swing) (hs2 : cfg.swing ≤ 75) (ht : cfg.trainingMode = false) :
    List.Chain' (fun x y => x < y)
      (((runScheduler cfg passes st0).1).map MainClick.time) ∧
    deltasFollow cfg (getTimingSnapshot cfg.bpm cfg.unit cfg.subdivision cfg.swing)
      st0.currentStep (((runScheduler cfg passes st0).1).map MainClick.time) := by
  have horbit := runScheduler_orbit cfg passes st0
  have hpos := mainStepDuration_pos cfg.bpm cfg.unit cfg.swing cfg.subdivision
    (by linarith) hu
  constructor
  · exact orbitSegC_chain cfg _ hpos _ _ _ horbit
  · exact orbitSegC_deltas cfg _ _ _ _ horbit

/-- Witness for C2: the scenario configuration with swing 60, one pass. -/
theorem scheduler_main_monotone_witness :
    (20 : ℚ) ≤ ({ scenarioConfig with swing := 60 } : SchedConfig).bpm ∧
    ({ scenarioConfig with swing := 60 } : SchedConfig).bpm ≤ 300 ∧
    (0 : ℚ) < ({ scenarioConfig with swing := 60 } : SchedConfig).unit ∧
    (0 : ℚ) ≤ ({ scenarioConfig with swing := 60 } : SchedConfig).swing ∧
    ({ scenarioConfig with swing := 60 } : SchedConfig).swing ≤ 75 ∧
    ({ scenarioConfig with swing := 60 } : SchedConfig).trainingMode = false ∧
    (List.Chain' (fun x y => x < y)
      (((runScheduler { scenarioConfig with swing := 60 } [(0, 4, 0)]
          (startState 0)).1).map MainClick.time) ∧
     deltasFollow { scenarioConfig with swing := 60 }
       (getTimingSnapshot ({ scenarioConfig with swing := 60 } : SchedConfig).bpm
         ({ scenarioConfig with swing := 60 } : SchedConfig).unit
         ({ scenarioConfig with swing := 60 } : SchedConfig).subdivision
         ({ scenarioConfig with swing := 60 } : SchedConfig).swing)
       (startState 0).currentStep
       (((runScheduler { scenarioConfig with swing := 60 } [(0, 4, 0)]
           (startState 0)).1).map MainClick.time)) :=
  ⟨by decide, by decide, by decide, by decide, by decide, by decide,
    scheduler_main_monotone { scenarioConfig with swing := 60 } (startState 0)
      [(0, 4, 0)] (by decide) (by decide) (by decide) (by decide) (by decide) rfl⟩

/-- The n-th click of an orbit segment is the click of the n-th iterate of the
projection advance. -/
theorem orbitSegC_getD (cfg : SchedConfig) (t : Timing) :
    ∀ (l : List MainClick) (a b : ℚ × ℕ), orbitSegC cfg t a l b →
      ∀ n : ℕ, n < l.length →
        l.getD n { time := 0, accented := false }
          = clickTS cfg t ((advanceTS cfg t)^[n] a) := by
  intro l
  induction l with
  | nil => intro a b _ n hn; simp at hn
  | cons c rest ih =>
      intro a b h n hn
      obtain ⟨hc, hrest⟩ := h
      cases n with
      | zero => simpa [List.getD] using hc
      | succ m =>
          have := ih (advanceTS cfg t a) b hrest m (by simpa using hn)
          simpa [List.getD, Function.iterate_succ_apply] using this

/-- The timing snapshot of the end-to-end scenario: beat duration 0.5 s, two
steps per beat, base step 0.25 s, swing disabled. -/
theorem scenario_timing :
    getTimingSnapshot scenarioConfig.bpm scenarioConfig.unit scenarioConfig.subdivision
      scenarioConfig.swing
    = { beatDuration := 1 / 2, subdivisionsPerBeat := 2, baseSubdivision := 1 / 4,
        swingEnabled := false, swingFactors := (1, 1) } := by
  have hspb : getSubdivisionsPerBeat scenarioConfig.subdivision = 2 := by decide
  simp only [getTimingSnapshot, hspb]
  norm_num [scenarioConfig]

/-- In the scenario, each main-loop iteration adds exactly 0.25 s and steps
the counter through the eight steps of the measure. -/
theorem scenario_advance (a : ℚ × ℕ) :
    advanceTS scenarioConfig
      (getTimingSnapshot scenarioConfig.bpm scenarioConfig.unit scenarioConfig.subdivision
        scenarioConfig.swing) a
      = (a.1 + 1 / 4, a.2 % 8 + 1) := by
  rw [scenario_timing]
  have h8 : totalSteps scenarioConfig
      ({ beatDuration := 1 / 2, subdivisionsPerBeat := 2, baseSubdivision := 1 / 4,
         swingEnabled := false, swingFactors := (1, 1) } : Timing) = 8 := by decide
  simp only [advanceTS, mainStepDuration, h8, Bool.false_eq_true, if_false, mul_one]

/-- Closed form of the scenario orbit: the n-th iterate advances the time by
n quarter-seconds and the step counter by n steps modulo 8. -/
theorem scenario_iter (n : ℕ) : ∀ a : ℚ × ℕ,
    ((advanceTS scenarioConfig
        (getTimingSnapshot scenarioConfig.bpm scenarioConfig.unit scenarioConfig.subdivision
          scenarioConfig.swing))^[n] a).1 = a.1 + n * (1 / 4) ∧
    ((advanceTS scenarioConfig
        (getTimingSnapshot scenarioConfig.bpm scenarioConfig.unit scenarioConfig.subdivision
          scenarioConfig.swing))^[n] a).2 % 8 = (a.2 + n) % 8 := by
  induction n with
  | zero => intro a; simp
  | succ m ih =>
      intro a
      rw [Function.iterate_succ_apply]
      obtain ⟨ih1, ih2⟩ := ih (advanceTS scenarioConfig
        (getTimingSnapshot scenarioConfig.bpm scenarioConfig.unit scenarioConfig.subdivision
          scenarioConfig.swing) a)
      constructor
      · rw [ih1, scenario_advance]
        push_cast
        ring
      · rw [ih2, scenario_advance]
        omega

/-- In the scenario (accent pattern [true, false, false, false], two steps per
beat, eight steps per measure), the dispatched step is accented exactly when
its step index within the measure is 0. -/
theorem scenario_accent (s : ℕ) :
    mainAccent scenarioConfig
      (getTimingSnapshot scenarioConfig.bpm scenarioConfig.unit scenarioConfig.subdivision
        scenarioConfig.swing) s
      = decide (s % 8 = 0) := by
  rw [scenario_timing]
  have h8 : totalSteps scenarioConfig
      ({ beatDuration := 1 / 2, subdivisionsPerBeat := 2, baseSubdivision := 1 / 4,
         swingEnabled := false, swingFactors := (1, 1) } : Timing) = 8 := by decide
  simp only [mainAccent, h8]
  obtain ⟨r, hr8, hreq⟩ : ∃ r, r < 8 ∧ s % 8 = r := ⟨s % 8, Nat.mod_lt _ (by norm_num), rfl⟩
  rw [hreq]
  interval_cases r <;> decide

/-- C5: with bpm 120, 4/4, subdivision 1/8, swing 0 and the default accent
pattern, starting the transport schedules the n-th dispatched click at
`now + 0.05 + n * 0.25` seconds — the first click at `now + 0.05`, successive
clicks 0.25 s apart — and a click is accented exactly when it is step 0 of its
measure (only beatIndex 0 is accented by default, and only subIndex 0 steps
can be accented). -/
theorem startTransport_scenario (now : ℚ) (passes : List (ℚ × ℕ × ℕ)) (n : ℕ)
    (h : n < ((runScheduler scenarioConfig passes (startState now)).1).length) :
    ((runScheduler scenarioConfig passes (startState now)).1).getD n
        { time := 0, accented := false }
      = { time := now + 1 / 20 + n * (1 / 4), accented := decide (n % 8 = 0) } := by
  have horbit := runScheduler_orbit scenarioConfig passes (startState now)
  have hget := orbitSegC_getD scenarioConfig _ _ _ _ horbit n h
  rw [hget]
  obtain ⟨h1, h2⟩ := scenario_iter n (projTS (startState now))
  simp only [clickTS, scenario_accent]
  have htime : ((advanceTS scenarioConfig
      (getTimingSnapshot scenarioConfig.bpm scenarioConfig.unit scenarioConfig.subdivision
        scenarioConfig.swing))^[n] (projTS (startState now))).1
      = now + 1 / 20 + n * (1 / 4) := by
    rw [h1]
    show (startState now).nextNoteTime + n * (1 / 4) = now + 1 / 20 + n * (1 / 4)
    show now + 1 / 20 + n * (1 / 4) = now + 1 / 20 + n * (1 / 4)
    rfl
  have hstep : ((advanceTS scenarioConfig
      (getTimingSnapshot scenarioConfig.bpm scenarioConfig.unit scenarioConfig.subdivision
        scenarioConfig.swing))^[n] (projTS (startState now))).2 % 8 = n % 8 := by
    rw [h2]
    show ((startState now).currentStep + n) % 8 = n % 8
    show (0 + n) % 8 = n % 8
    rw [Nat.zero_add]
  rw [htime, hstep]

/-- Witness for C5: the first dispatched click of a single pass at time 0 is
at 0.05 s and accented. -/
theorem startTransport_scenario_witness :
    0 < ((runScheduler scenarioConfig [(0, 3, 0)] (startState 0)).1).length ∧
    ((runScheduler scenarioConfig [(0, 3, 0)] (startState 0)).1).getD 0
        { time := 0, accented := false }
      = { time := 0 + 1 / 20 + (0 : ℕ) * (1 / 4), accented := decide (0 % 8 = 0) } := by
  have hlen : ((runScheduler scenarioConfig [(0, 3, 0)] (startState 0)).1).length = 1 := by
    have hspb : getSubdivisionsPerBeat scenarioConfig.subdivision = 2 := by decide
    simp only [runScheduler, schedulerPass, scenario_timing]
    norm_num [mainFill, mainLoopBody, startState, scenarioConfig, mainStepDuration,
      totalSteps]
  exact ⟨by rw [hlen]; norm_num,
    startTransport_scenario 0 [(0, 3, 0)] 0 (by rw [hlen]; norm_num)⟩

/-- With a non-positive poly step duration and a start time inside the
look-ahead horizon, the poly fill loop emits nothing and its guard never
becomes false, however much fuel it is given: the time never advances past the
horizon, so the `while` loop spins. -/
theorem polyFill_nonpos_spins (total subs : ℕ) (d vol horizon : ℚ) (hd : d ≤ 0) :
    ∀ (fuel : ℕ) (time : ℚ) (step : ℕ), time < horizon →
      (polyFill total subs d vol horizon fuel (time, step)).1 = [] ∧
      (polyFill total subs d vol horizon fuel (time, step)).2.2 = false := by
  intro fuel
  induction fuel with
  | zero => intro time step h; simp [polyFill]
  | succ m ih =>
      intro time step h
      have hnext : time + d < horizon := by linarith
      have hrec := ih (time + d) (step % total + 1) hnext
      have hno : ¬(0 < d) := not_lt.mpr hd
      simp only [polyFill, if_pos h, if_neg hno]
      simp [hrec.1, hrec.2]

/-- C3: on a poly-stream fill pass whose computed step duration is zero (with
the stream inside the look-ahead window), the scheduler emits no poly clicks —
the emission guard works — but the pass does NOT terminate: for every fuel
bound the loop guard is still true (`completed` stays false), because
`polyNextNoteTime += polyStepDuration` never advances and only the click
emission is guarded. -/
theorem polyFill_zero_duration_never_terminates :
    ∀ fuel : ℕ,
      (polyFill 3 1 0 55 (12 / 100) fuel (0, 0)).1 = [] ∧
      (polyFill 3 1 0 55 (12 / 100) fuel (0, 0)).2.2 = false :=
  fun fuel =>
    polyFill_nonpos_spins 3 1 0 55 (12 / 100) (le_refl 0) fuel 0 0 (by norm_num)

/-- The two swing factors of any timing snapshot sum to exactly 2. -/
theorem swingFactors_sum (bpm unit swing : ℚ) (subdivision : String) :
    (getTimingSnapshot bpm unit subdivision swing).swingFactors.1
      + (getTimingSnapshot bpm unit subdivision swing).swingFactors.2 = 2 := by
  simp only [getTimingSnapshot]
  split_ifs <;> norm_num

/-- Any two consecutive step durations sum to twice the base step duration. -/
theorem mainStepDuration_pair (t : Timing)
    (hsum : t.swingFactors.1 + t.swingFactors.2 = 2) (j : ℕ) :
    mainStepDuration t j + mainStepDuration t (j + 1) = 2 * t.baseSubdivision := by
  rcases Nat.mod_two_eq_zero_or_one j with h0 | h1
  · have h1' : (j + 1) % 2 = 1 := by omega
    simp only [mainStepDuration, h0, h1']
    norm_num
    split_ifs with hs
    · calc t.baseSubdivision * t.swingFactors.1 + t.baseSubdivision * t.swingFactors.2
          = t.baseSubdivision * (t.swingFactors.1 + t.swingFactors.2) := by ring
        _ = t.baseSubdivision * 2 := by rw [hsum]
        _ = 2 * t.baseSubdivision := by ring
    · ring
  · have h0' : (j + 1) % 2 = 0 := by omega
    simp only [mainStepDuration, h1, h0']
    norm_num
    split_ifs with hs
    · calc t.baseSubdivision * t.swingFactors.2 + t.baseSubdivision * t.swingFactors.1
          = t.baseSubdivision * (t.swingFactors.1 + t.swingFactors.2) := by ring
        _ = t.baseSubdivision * 2 := by rw [hsum]
        _ = 2 * t.baseSubdivision := by ring
    · ring

/-- C4: for swing in [0,75], when the subdivision's steps per beat is odd,
swing has no effect (every step lasts exactly the base step duration); when it
is even the two alternating factors are exactly `1 + swing/200` and
`1 − swing/200`; and (in either case, since the factors always sum to 2) any
even number of consecutive steps lasts exactly that many base step durations,
preserving the beat duration. -/
theorem timing_swing_model (bpm unit swing : ℚ) (subdivision : String)
    (h0 : 0 ≤ swing) (h75 : swing ≤ 75) :
    ((getTimingSnapshot bpm unit subdivision swing).subdivisionsPerBeat % 2 = 1 →
      ∀ j, mainStepDuration (getTimingSnapshot bpm unit subdivision swing) j
        = (getTimingSnapshot bpm unit subdivision swing).baseSubdivision) ∧
    ((getTimingSnapshot bpm unit subdivision swing).subdivisionsPerBeat % 2 = 0 →
      (getTimingSnapshot bpm unit subdivision swing).swingFactors
        = (1 + swing / 200, 1 - swing / 200)) ∧
    (∀ i k : ℕ,
      ((List.range (2 * k)).map (fun j =>
          mainStepDuration (getTimingSnapshot bpm unit subdivision swing) (i + j))).sum
        = (2 * k : ℚ) * (getTimingSnapshot bpm unit subdivision swing).baseSubdivision) := by
  have hmax : max (0 : ℚ) (swing / 100) = swing / 100 := max_eq_right (by linarith)
  have hmin : min (3 / 4 : ℚ) (swing / 100) = swing / 100 := min_eq_right (by linarith)
  refine ⟨?_, ?_, ?_⟩
  · intro hodd j
    have hsf : (getTimingSnapshot bpm unit subdivision swing).swingEnabled = false := by
      simp only [getTimingSnapshot] at hodd ⊢
      simp [hodd]
    simp [mainStepDuration, hsf]
  · intro heven
    simp only [getTimingSnapshot] at heven ⊢
    rcases h0.lt_or_eq with hpos | hzero
    · have ha : (0 : ℚ) < min (3 / 4) (max 0 (swing / 100)) := by
        rw [hmax, hmin]
        positivity
      simp only [hmax, hmin] at ha ⊢
      simp only [heven, decide_eq_true ha]
      norm_num
      ring
    · rw [← hzero]
      norm_num
  · intro i k
    induction k with
    | zero => simp
    | succ m ihm =>
        have h2 : 2 * (m + 1) = 2 * m + 1 + 1 := by ring
        rw [h2, List.range_succ, List.range_succ]
        simp only [List.map_append, List.sum_append, List.map_cons, List.map_nil,
          List.sum_cons, List.sum_nil]
        have hpair := mainStepDuration_pair
          (getTimingSnapshot bpm unit subdivision swing)
          (swingFactors_sum bpm unit swing subdivision) (i + 2 * m)
        have hidx : i + (2 * m + 1) = i + 2 * m + 1 := by omega
        rw [ihm, hidx]
        push_cast
        linarith [hpair]

/-- Witness for C4 at bpm 120, 4/4, subdivision 1/8 (even steps per beat),
swing 60. -/
theorem timing_swing_model_witness :
    (0 : ℚ) ≤ 60 ∧ (60 : ℚ) ≤ 75 ∧
    (((getTimingSnapshot 120 4 "1/8" 60).subdivisionsPerBeat % 2 = 1 →
        ∀ j, mainStepDuration (getTimingSnapshot 120 4 "1/8" 60) j
          = (getTimingSnapshot 120 4 "1/8" 60).baseSubdivision) ∧
     ((getTimingSnapshot 120 4 "1/8" 60).subdivisionsPerBeat % 2 = 0 →
        (getTimingSnapshot 120 4 "1/8" 60).swingFactors
          = (1 + (60 : ℚ) / 200, 1 - (60 : ℚ) / 200)) ∧
     (∀ i k : ℕ,
        ((List.range (2 * k)).map (fun j =>
            mainStepDuration (getTimingSnapshot 120 4 "1/8" 60) (i + j))).sum
          = (2 * k : ℚ) * (getTimingSnapshot 120 4 "1/8" 60).baseSubdivision)) :=
  ⟨by norm_num, by norm_num,
    timing_swing_model 120 4 60 "1/8" (by norm_num) (by norm_num)⟩
